import Mathlib

/-!
Verification of the Feather batch image-normalization pipeline
(`Feather.py`) against its specification.

The development is a shallow embedding of the processing core:

* geometry of `process_single_image` (orientation-aware target swap,
  scale-to-fit, floor-rounded resize) as pure functions on `Nat`/`ℚ`
  (Python's float division is modelled by exact rational arithmetic,
  and Python's `int(...)` truncation on non-negative values by `Int.floor`);
* the transform itself as a function from an abstract file world
  (`PyFile`: path, current bytes on disk, decode result, possible
  mid-transform exception, encoder, save behaviour) to the outcome
  string and the resulting bytes on disk.  The `try/except` that wraps
  the whole body of `process_single_image` makes the embedding total;
  the save step writes directly to the source path (the code calls
  `final_img.save(file_path, ...)` with no temporary file), which the
  `SaveOutcome.failAfterOpen` case makes observable;
* the scheduler (`process_image_batch`, `ImageProcessor.run`) as a
  sequential fold over batches.  Counter updates commute (each file is
  recorded exactly once, under the tracker's lock in the code), so the
  sequential semantics is count-faithful to any thread interleaving; a
  batch-level infrastructure failure is modelled by an optional failure
  point: the batch records its first `j` files and then raises (the
  progress-update/gc section of the loop sits outside the per-file
  `try`, so an exception there escapes after the file was recorded),
  `j = 0` standing for a batch that never ran (cancelled, or failed at
  dispatch).  The handler in `ImageProcessor.run` (lines 253-257) then
  credits every file of the batch as an error, exactly as the source
  does, with no regard for files the batch had already recorded.
-/

/-- Lowercase a character list (Python `str.lower`, ASCII range as used
by the extension checks). -/
def lowerChars : List Char → List Char
  | [] => []
  | c :: cs => c.toLower :: lowerChars cs

/-- Model of Python `s.lower()`. -/
def pyLower (s : String) : String := ⟨lowerChars s.data⟩

/-- Character-list core of Python's `str.startswith`. -/
def charsStart : List Char → List Char → Bool
  | _, [] => true
  | [], _ :: _ => false
  | c :: cs, p :: ps => (c == p) && charsStart cs ps

/-- Model of Python `s.startswith(pre)`. -/
def pyStartswith (s pre : String) : Bool :=
  charsStart s.data pre.data

/-- Model of Python `s.endswith(suf)`, via reversed character lists. -/
def pyEndswith (s suf : String) : Bool :=
  charsStart s.data.reverse suf.data.reverse

/-- The supported-extension test of `process_single_image` (line 83):
`file_path.lower().endswith(('.jpeg', '.jpg', '.png', '.tiff', '.tif'))`. -/
def supportedExt (path : String) : Bool :=
  let p := pyLower path
  pyEndswith p ".jpeg" || pyEndswith p ".jpg" || pyEndswith p ".png" ||
    pyEndswith p ".tiff" || pyEndswith p ".tif"

/-- Orientation-aware target swap of `process_single_image` (lines 97-105):
`original_is_landscape = ow > oh`; a landscape source with a portrait
target request, or a non-landscape source with a landscape target
request, swaps the target dimensions. -/
def effectiveTarget (ow oh tw th : Nat) : Nat × Nat :=
  if ow > oh then
    if tw < th then (th, tw) else (tw, th)
  else
    if tw > th then (th, tw) else (tw, th)

/-- The uniform scale factor of lines 107-110:
`min(target_width / original_width, target_height / original_height)`,
with Python's float division modelled exactly on `ℚ`. -/
def scaleFactor (ow oh tw th : Nat) : ℚ :=
  min ((tw : ℚ) / (ow : ℚ)) ((th : ℚ) / (oh : ℚ))

/-- `new_width = int(original_width * scale)` (line 113); `int` truncates,
which is `Int.floor` on the non-negative values that arise here. -/
def scaledWidth (ow oh tw th : Nat) : Nat :=
  (⌊(ow : ℚ) * scaleFactor ow oh tw th⌋).toNat

/-- `new_height = int(original_height * scale)` (line 114). -/
def scaledHeight (ow oh tw th : Nat) : Nat :=
  (⌊(oh : ℚ) * scaleFactor ow oh tw th⌋).toNat

/-- `inches_to_pixels = lambda inches: int(inches * dpi)` from
`MainWindow.start_processing` (line 407): Python `int()` truncates toward
zero. -/
def inches_to_pixels (inches : ℚ) (dpi : Nat) : ℤ :=
  if 0 ≤ inches * (dpi : ℚ) then ⌊inches * (dpi : ℚ)⌋ else ⌈inches * (dpi : ℚ)⌉

/-- Modelled from the spec: the spec's stated conversion is
`round(inches * dpi)` (spec §6); rounding to the nearest integer, half
upward (the tie-breaking rule is irrelevant to every statement below,
which avoids ties). -/
def round_spec (inches : ℚ) (dpi : Nat) : ℤ :=
  ⌊inches * (dpi : ℚ) + 1 / 2⌋

/-- Decoded-image data captured at lines 88-95 of the source: mode,
container format and pixel dimensions. -/
structure ImageData where
  mode : String
  format : String
  width : Nat
  height : Nat
deriving Repr

/-- Behaviour of the in-place `final_img.save(file_path, ...)` call
(lines 151-177).  The save opens the source path for writing (which
truncates it) and then streams the encoding:
`ok` writes the whole encoding; `failBeforeOpen` raises before the file
is opened (the bytes on disk stay what they were); `failAfterOpen k`
raises after `k` bytes of the new encoding were written over the file. -/
inductive SaveOutcome where
  | ok
  | failBeforeOpen (msg : String)
  | failAfterOpen (k : Nat) (msg : String)

/-- One file of the abstract world `process_single_image` acts on: its
path, the bytes currently on disk, the result of `Image.open`, a
possible exception between decode and save (resize / canvas / paste,
lines 96-149), the encoder (bytes the save would produce for a given
canvas size) and the save behaviour. -/
structure PyFile where
  path : String
  content : List Nat
  decode : Except String ImageData
  transformError : Option String
  encode : Nat × Nat → List Nat
  save : SaveOutcome

/-- The bytes a fully successful save would leave on disk: the encoding
of the final canvas, whose dimensions are the orientation-adjusted
target. -/
def encodedBytes (f : PyFile) (targetSize : Nat × Nat) : List Nat :=
  match f.decode with
  | .error _ => []
  | .ok img => f.encode (effectiveTarget img.width img.height targetSize.1 targetSize.2)

/-- Embedding of `process_single_image` (lines 78-187): the whole body
is wrapped in `try/except Exception`, so the function always returns an
outcome string; the pair also carries the bytes left at `file_path`.
The unsupported-extension branch returns before any file access; any
exception up to the save leaves the bytes untouched; the save itself
writes directly to the source path. -/
def process_single_image (f : PyFile) (targetSize : Nat × Nat) : String × List Nat :=
  if supportedExt f.path = false then ("skipped: unsupported format", f.content)
  else
    match f.decode with
    | .error e => ("error: " ++ e, f.content)
    | .ok img =>
      match f.transformError with
      | some e => ("error: " ++ e, f.content)
      | none =>
        let bytes := f.encode (effectiveTarget img.width img.height targetSize.1 targetSize.2)
        match f.save with
        | .ok => ("success", bytes)
        | .failBeforeOpen e => ("error: " ++ e, f.content)
        | .failAfterOpen k e => ("error: " ++ e, bytes.take k)

/-- The shared counters of `ProgressTracker` (lines 27-46). -/
structure ProgressTracker where
  processed : Nat
  errors : Nat
  total : Nat
deriving Repr, DecidableEq

/-- Per-file accounting of `process_image_batch` (lines 57-60): a result
starting with `error:` increments the error counter, any other result —
including `skipped: ...` — increments the processed counter. -/
def recordFile (t : ProgressTracker) (f : PyFile) (targetSize : Nat × Nat) : ProgressTracker :=
  if pyStartswith (process_single_image f targetSize).1 "error:" then
    { t with errors := t.errors + 1 }
  else
    { t with processed := t.processed + 1 }

/-- The per-file progress emission of lines 69-71:
`int(((processed + errors) / total) * 100)`, exact arithmetic. -/
def progressValue (t : ProgressTracker) : Nat :=
  (t.processed + t.errors) * 100 / t.total

/-- The per-file loop of `process_image_batch` (lines 52-74): record each
file, then emit the progress value for the updated counters. -/
def processFiles (targetSize : Nat × Nat) : List PyFile → ProgressTracker → ProgressTracker × List Nat
  | [], t => (t, [])
  | f :: fs, t =>
    ((processFiles targetSize fs (recordFile t f targetSize)).1,
      progressValue (recordFile t f targetSize) ::
        (processFiles targetSize fs (recordFile t f targetSize)).2)

/-- One dispatched batch with its failure behaviour: `none` runs the
whole batch; `some j` records the first `j` files (with their emissions)
and then raises out of `process_image_batch`.  The `Bool` reports
whether the batch raised. -/
def process_image_batch (targetSize : Nat × Nat) (batch : List PyFile)
    (failure : Option Nat) (t : ProgressTracker) : ProgressTracker × List Nat × Bool :=
  match failure with
  | none =>
    ((processFiles targetSize batch t).1, (processFiles targetSize batch t).2, false)
  | some j =>
    ((processFiles targetSize (batch.take j) t).1,
      (processFiles targetSize (batch.take j) t).2, true)

/-- The `as_completed` collection loop of `ImageProcessor.run` (lines
244-257): run each batch; when a batch raised, credit every file of the
batch as an error (lines 256-257) and continue with the remaining
batches. -/
def runBatches (targetSize : Nat × Nat) :
    List (List PyFile) → List (Option Nat) → ProgressTracker → ProgressTracker × List Nat
  | [], _, t => (t, [])
  | b :: bs, sched, t =>
    let r := process_image_batch targetSize b (sched.headD none) t
    let t2 := if r.2.2 then { r.1 with errors := r.1.errors + b.length } else r.1
    let rest := runBatches targetSize bs sched.tail t2
    (rest.1, r.2.1 ++ rest.2)

/-- Fuel-indexed batch splitting, mirroring the slicing
`file_paths[i:i + batch_size]` of lines 221-224; the fuel (instantiated
with the list length) only forces structural recursion. -/
def chunksGo (bs : Nat) : Nat → List PyFile → List (List PyFile)
  | 0, _ => []
  | _, [] => []
  | fuel + 1, f :: rest => (f :: rest.take (bs - 1)) :: chunksGo bs fuel (rest.drop (bs - 1))

/-- Partition of the file list into contiguous batches of `bs` files,
the last one possibly smaller (lines 221-224). -/
def chunksOf (bs : Nat) (files : List PyFile) : List (List PyFile) :=
  chunksGo bs files.length files

/-- What one run leaves behind: the final counters, every progress value
emitted in order, and how many batches were handed to the worker pool. -/
structure RunOutput where
  processed : Nat
  errors : Nat
  total : Nat
  emissions : List Nat
  batchesSubmitted : Nat
deriving Repr, DecidableEq

/-- Embedding of `ImageProcessor.run` (lines 211-272): an empty file
list returns at once — `finished` is signalled but nothing is emitted on
the progress stream and no batch is submitted (lines 213-215).
Otherwise the files are split into batches, the batches run under the
failure schedule, and the `finally` block emits one final progress value
(`int(((processed + errors) / total) * 100)` guarded by `total > 0`,
lines 262-266). -/
def schedulerRun (files : List PyFile) (targetSize : Nat × Nat) (batchSize : Nat)
    (sched : List (Option Nat)) : RunOutput :=
  if files.length = 0 then
    { processed := 0, errors := 0, total := 0, emissions := [], batchesSubmitted := 0 }
  else
    let batches := chunksOf batchSize files
    let r := runBatches targetSize batches sched ⟨0, 0, files.length⟩
    let t := r.1
    let final := if t.total > 0 then (t.processed + t.errors) * 100 / t.total else 100
    { processed := t.processed, errors := t.errors, total := t.total,
      emissions := r.2 ++ [final], batchesSubmitted := batches.length }

/-- A decoded RGB JPEG used by the concrete scenarios. -/
def imgA : ImageData := { mode := "RGB", format := "JPEG", width := 100, height := 150 }

/-- A JPEG file whose decode, transform and save all succeed. -/
def fileOk (p : String) : PyFile :=
  { path := p, content := [0], decode := .ok imgA, transformError := none,
    encode := fun _ => [1], save := .ok }

/-- First JPEG of the concrete scenarios. -/
def fJ1 : PyFile := fileOk "a.jpg"

/-- Second JPEG of the concrete scenarios. -/
def fJ2 : PyFile := fileOk "b.jpg"

/-- The unsupported `.bmp` file of concrete scenario 2. -/
def fBmp : PyFile :=
  { path := "c.bmp", content := [0], decode := .ok imgA, transformError := none,
    encode := fun _ => [1], save := .ok }

/-- A JPEG whose save raises after writing 2 bytes of a 4-byte encoding
over the source file. -/
def fPartial : PyFile :=
  { path := "scan.jpg", content := [1, 2, 3], decode := .ok imgA, transformError := none,
    encode := fun _ => [7, 7, 7, 7], save := .failAfterOpen 2 "disk full" }

/-- The production target size: 8.5 by 11 inches at 200 DPI. -/
def ts200 : Nat × Nat := (1700, 2200)


theorem charsStart_nil (l : List Char) : charsStart l [] = true := by
  cases l <;> rfl

theorem charsStart_extend (p : List Char) :
    ∀ q rest, charsStart q p = true → charsStart (q ++ rest) p = true := by
  induction p with
  | nil => intro q rest _; exact charsStart_nil _
  | cons c cs ih =>
    intro q rest h
    cases q with
    | nil => exact absurd h (by simp [charsStart])
    | cons d ds =>
      simp only [charsStart, Bool.and_eq_true] at h
      simp only [List.cons_append, charsStart, Bool.and_eq_true]
      exact ⟨h.1, ih ds rest h.2⟩

theorem string_data_append (a b : String) : (a ++ b).data = a.data ++ b.data := by
  cases a; cases b; rfl

theorem pyStartswith_error_append (e : String) :
    pyStartswith ("error: " ++ e) "error:" = true := by
  unfold pyStartswith
  rw [string_data_append]
  exact charsStart_extend _ _ _ (by decide)

/-- C6: for a decodable image of dimensions `(ow, oh)` and effective
target canvas `(tw, th)`, the floor-rounded resized dimensions fit
entirely inside the canvas, and the scale factor
`min(tw / ow, th / oh)` has no 1.0 ceiling: a source strictly smaller
than the target in both dimensions is scaled strictly up. -/
theorem scale_to_fit_bounds (ow oh tw th : Nat) (hw : 0 < ow) (hh : 0 < oh) :
    scaledWidth ow oh tw th ≤ tw ∧ scaledHeight ow oh tw th ≤ th ∧
      (ow < tw → oh < th → 1 < scaleFactor ow oh tw th) := by
  have hw' : (0 : ℚ) < (ow : ℚ) := by exact_mod_cast hw
  have hh' : (0 : ℚ) < (oh : ℚ) := by exact_mod_cast hh
  refine ⟨?_, ?_, ?_⟩
  · have h1 : (ow : ℚ) * scaleFactor ow oh tw th ≤ (tw : ℚ) := by
      have hmin : scaleFactor ow oh tw th ≤ (tw : ℚ) / (ow : ℚ) := min_le_left _ _
      calc (ow : ℚ) * scaleFactor ow oh tw th
          ≤ (ow : ℚ) * ((tw : ℚ) / (ow : ℚ)) :=
            mul_le_mul_of_nonneg_left hmin (le_of_lt hw')
        _ = (tw : ℚ) := by field_simp
    have h2 : ⌊(ow : ℚ) * scaleFactor ow oh tw th⌋ ≤ (tw : ℤ) := by
      have := Int.floor_le_floor h1
      simpa using this
    exact Int.toNat_le.mpr h2
  · have h1 : (oh : ℚ) * scaleFactor ow oh tw th ≤ (th : ℚ) := by
      have hmin : scaleFactor ow oh tw th ≤ (th : ℚ) / (oh : ℚ) := min_le_right _ _
      calc (oh : ℚ) * scaleFactor ow oh tw th
          ≤ (oh : ℚ) * ((th : ℚ) / (oh : ℚ)) :=
            mul_le_mul_of_nonneg_left hmin (le_of_lt hh')
        _ = (th : ℚ) := by field_simp
    have h2 : ⌊(oh : ℚ) * scaleFactor ow oh tw th⌋ ≤ (th : ℤ) := by
      have := Int.floor_le_floor h1
      simpa using this
    exact Int.toNat_le.mpr h2
  · intro h1 h2
    refine lt_min_iff.mpr ⟨?_, ?_⟩
    · exact (one_lt_div hw').mpr (by exact_mod_cast h1)
    · exact (one_lt_div hh').mpr (by exact_mod_cast h2)

theorem scale_to_fit_bounds_witness :
    scaledWidth 2 2 10 20 ≤ 10 ∧ scaledHeight 2 2 10 20 ≤ 20 ∧
      1 < scaleFactor 2 2 10 20 := by
  have h := scale_to_fit_bounds 2 2 10 20 (by norm_num) (by norm_num)
  exact ⟨h.1, h.2.1, h.2.2 (by norm_num) (by norm_num)⟩

/-- C7: the effective canvas follows the source orientation — a
landscape source (`oh < ow`) with a taller-than-wide target swaps the
target dimensions, a portrait source (`ow < oh`) with a wider-than-tall
target swaps them, and already-matching orientations are left alone. -/
theorem orientation_swap_law (ow oh tw th : Nat) :
    (oh < ow → tw < th → effectiveTarget ow oh tw th = (th, tw)) ∧
    (ow < oh → th < tw → effectiveTarget ow oh tw th = (th, tw)) ∧
    ((oh < ow ∧ th < tw) ∨ (ow < oh ∧ tw < th) →
      effectiveTarget ow oh tw th = (tw, th)) := by
  unfold effectiveTarget
  refine ⟨?_, ?_, ?_⟩
  · intro h1 h2
    rw [if_pos h1, if_pos h2]
  · intro h1 h2
    rw [if_neg (by omega), if_pos h2]
  · intro h
    rcases h with ⟨h1, h2⟩ | ⟨h1, h2⟩
    · rw [if_pos h1, if_neg (by omega)]
    · rw [if_neg (by omega), if_neg (by omega)]

theorem orientation_swap_law_witness :
    effectiveTarget 4 3 2 5 = (5, 2) ∧ effectiveTarget 3 4 5 2 = (2, 5) ∧
      effectiveTarget 4 3 5 2 = (5, 2) := by
  refine ⟨(orientation_swap_law 4 3 2 5).1 (by norm_num) (by norm_num),
    (orientation_swap_law 3 4 5 2).2.1 (by norm_num) (by norm_num),
    (orientation_swap_law 4 3 5 2).2.2 (Or.inl ⟨by norm_num, by norm_num⟩)⟩

/-- C10: a square source (`width == height`) fails the strict
`width > height` landscape test, so it is treated as portrait: with a
landscape-shaped target request the target dimensions are swapped and
the resulting canvas is portrait-oriented (width strictly less than
height). -/
theorem square_source_is_portrait (s tw th : Nat) (h : th < tw) :
    effectiveTarget s s tw th = (th, tw) ∧
      (effectiveTarget s s tw th).1 < (effectiveTarget s s tw th).2 := by
  have hns : ¬ s > s := lt_irrefl s
  unfold effectiveTarget
  rw [if_neg hns, if_pos h]
  exact ⟨rfl, h⟩

theorem square_source_is_portrait_witness :
    effectiveTarget 5 5 4 3 = (3, 4) ∧
      (effectiveTarget 5 5 4 3).1 < (effectiveTarget 5 5 4 3).2 :=
  square_source_is_portrait 5 4 3 (by norm_num)

/-- C9: `process_single_image` is total — the `try/except Exception`
wrapping its whole body means every call returns one of the outcome
strings `success`, `skipped: ...` or `error: ...`, for every file world
and target size; no exception reaches the batch loop, whose per-file
`except` branch is therefore unreachable. -/
theorem process_single_image_total_outcomes (f : PyFile) (targetSize : Nat × Nat) :
    (process_single_image f targetSize).1 = "success" ∨
      pyStartswith (process_single_image f targetSize).1 "skipped:" = true ∨
      pyStartswith (process_single_image f targetSize).1 "error:" = true := by
  unfold process_single_image
  split
  · right; left
    show pyStartswith "skipped: unsupported format" "skipped:" = true
    decide
  · cases hd : f.decode with
    | error e =>
      right; right
      simpa [hd] using pyStartswith_error_append e
    | ok img =>
      cases ht : f.transformError with
      | some e =>
        right; right
        simpa [hd, ht] using pyStartswith_error_append e
      | none =>
        cases hs : f.save with
        | ok =>
          left
          simp [hd, ht, hs]
        | failBeforeOpen e =>
          right; right
          simpa [hd, ht, hs] using pyStartswith_error_append e
        | failAfterOpen k e =>
          right; right
          simpa [hd, ht, hs] using pyStartswith_error_append e

/-- C2 counterexample: a scheduler run over two good JPEGs and one
`.bmp` file ends with `(processed, errors, total) = (3, 0, 3)` — the
`Skipped` outcome is counted toward the processed tally, not the error
tally, so the claimed final tally `(2, 1, 3)` is wrong on the code. -/
theorem skipped_file_tally_counterexample :
    (process_single_image fBmp ts200).1 = "skipped: unsupported format" ∧
      (schedulerRun [fJ1, fJ2, fBmp] ts200 10 []).processed = 3 ∧
      (schedulerRun [fJ1, fJ2, fBmp] ts200 10 []).errors = 0 ∧
      (schedulerRun [fJ1, fJ2, fBmp] ts200 10 []).total = 3 := by
  refine ⟨by decide, by decide, by decide, by decide⟩

/-- C2 as amended: a file with an unsupported extension yields the
`skipped: unsupported format` outcome, and the batch loop — which sends
to the error tally only results starting with `error:` — counts it
toward the processed tally; a run over 2 JPEGs and 1 `.bmp` handed to
the scheduler therefore ends `(3, 0, 3)`. -/
theorem skipped_counts_as_processed (f : PyFile) (targetSize : Nat × Nat)
    (t : ProgressTracker) (h : supportedExt f.path = false) :
    (process_single_image f targetSize).1 = "skipped: unsupported format" ∧
      recordFile t f targetSize = { t with processed := t.processed + 1 } ∧
      schedulerRun [fJ1, fJ2, fBmp] ts200 10 [] =
        { processed := 3, errors := 0, total := 3,
          emissions := [33, 66, 100, 100], batchesSubmitted := 1 } := by
  have h1 : (process_single_image f targetSize).1 = "skipped: unsupported format" := by
    unfold process_single_image
    rw [if_pos h]
  refine ⟨h1, ?_, by decide⟩
  unfold recordFile
  rw [h1, if_neg (by decide)]

theorem skipped_counts_as_processed_witness :
    (process_single_image fBmp ts200).1 = "skipped: unsupported format" ∧
      recordFile ⟨0, 0, 3⟩ fBmp ts200 = ⟨1, 0, 3⟩ := by
  have h := skipped_counts_as_processed fBmp ts200 ⟨0, 0, 3⟩ (by decide)
  exact ⟨h.1, h.2.1⟩

/-- C3 counterexample: `final_img.save(file_path, ...)` writes directly
over the source path with no temp-write-and-rename, so a save that
raises after writing 2 bytes of a 4-byte encoding yields a `Failed`
outcome but leaves the file changed — a partially written file
survives, against the claim that the source is byte-for-byte unchanged
on every failure. -/
theorem partial_write_survives :
    pyStartswith (process_single_image fPartial ts200).1 "error:" = true ∧
      (process_single_image fPartial ts200).2 ≠ fPartial.content ∧
      (process_single_image fPartial ts200).2 = [7, 7] := by
  refine ⟨by decide, by decide, by decide⟩

/-- C3 as amended: any failure up to the moment the save opens the
source file for writing returns a `Skipped` or `Failed` outcome with
the file byte-for-byte unchanged; a success leaves the full new
encoding; but the save writes in place (no temp-write-and-rename), so
a failure after writing began leaves a prefix of the new encoding — a
partially written file can survive a mid-write failure. -/
theorem transform_write_discipline (f : PyFile) (targetSize : Nat × Nat) :
    ((process_single_image f targetSize).1 = "success" ∧
      (process_single_image f targetSize).2 = encodedBytes f targetSize) ∨
    ((process_single_image f targetSize).2 = f.content ∧
      ((process_single_image f targetSize).1 = "skipped: unsupported format" ∨
        pyStartswith (process_single_image f targetSize).1 "error:" = true)) ∨
    (pyStartswith (process_single_image f targetSize).1 "error:" = true ∧
      ∃ k, (process_single_image f targetSize).2 = (encodedBytes f targetSize).take k) := by
  unfold process_single_image encodedBytes
  split
  · right; left
    exact ⟨rfl, Or.inl rfl⟩
  · cases hd : f.decode with
    | error e =>
      right; left
      refine ⟨by simp [hd], Or.inr ?_⟩
      simpa [hd] using pyStartswith_error_append e
    | ok img =>
      cases ht : f.transformError with
      | some e =>
        right; left
        refine ⟨by simp [hd, ht], Or.inr ?_⟩
        simpa [hd, ht] using pyStartswith_error_append e
      | none =>
        cases hs : f.save with
        | ok =>
          left
          simp [hd, ht, hs]
        | failBeforeOpen e =>
          right; left
          refine ⟨by simp [hd, ht, hs], Or.inr ?_⟩
          simpa [hd, ht, hs] using pyStartswith_error_append e
        | failAfterOpen k e =>
          right; right
          refine ⟨?_, ⟨k, by simp [hd, ht, hs]⟩⟩
          simpa [hd, ht, hs] using pyStartswith_error_append e

/-- C8 counterexample: the conversion is `int(inches * dpi)`, which
truncates; at 0.5085 inches and 200 DPI (101.7 pixels) the code yields
101 while the claimed `round(inches * dpi)` yields 102. -/
theorem int_conversion_not_round :
    inches_to_pixels (1017 / 2000) 200 = 101 ∧
      round_spec (1017 / 2000) 200 = 102 ∧ (101 : ℤ) ≠ 102 := by
  refine ⟨by norm_num [inches_to_pixels], by norm_num [round_spec], by norm_num⟩

/-- C8 as amended: the inches-to-pixels conversion is the pure function
`int(inches * dpi)` — truncation toward zero, not rounding to nearest —
applied independently to width and height; at the production target of
8.5 by 11 inches and 200 DPI both products are exact integers, so the
canvas is still 1700 by 2200 pixels. -/
theorem inches_to_pixels_conversion :
    inches_to_pixels (17 / 2) 200 = 1700 ∧ inches_to_pixels 11 200 = 2200 ∧
      inches_to_pixels (1017 / 2000) 200 = 101 := by
  refine ⟨by norm_num [inches_to_pixels], by norm_num [inches_to_pixels],
    by norm_num [inches_to_pixels]⟩

theorem recordFile_total (t : ProgressTracker) (f : PyFile) (targetSize : Nat × Nat) :
    (recordFile t f targetSize).total = t.total := by
  unfold recordFile
  split <;> rfl

theorem recordFile_sum (t : ProgressTracker) (f : PyFile) (targetSize : Nat × Nat) :
    (recordFile t f targetSize).processed + (recordFile t f targetSize).errors
      = t.processed + t.errors + 1 := by
  unfold recordFile
  split
  · show t.processed + (t.errors + 1) = t.processed + t.errors + 1
    omega
  · show t.processed + 1 + t.errors = t.processed + t.errors + 1
    omega

theorem processFiles_total (targetSize : Nat × Nat) (l : List PyFile) :
    ∀ t : ProgressTracker, (processFiles targetSize l t).1.total = t.total := by
  induction l with
  | nil => intro t; rfl
  | cons f fs ih =>
    intro t
    show (processFiles targetSize fs (recordFile t f targetSize)).1.total = t.total
    rw [ih, recordFile_total]

theorem processFiles_sum (targetSize : Nat × Nat) (l : List PyFile) :
    ∀ t : ProgressTracker,
      (processFiles targetSize l t).1.processed + (processFiles targetSize l t).1.errors
        = t.processed + t.errors + l.length := by
  induction l with
  | nil => intro t; rfl
  | cons f fs ih =>
    intro t
    show (processFiles targetSize fs (recordFile t f targetSize)).1.processed +
        (processFiles targetSize fs (recordFile t f targetSize)).1.errors
      = t.processed + t.errors + (f :: fs).length
    rw [ih, recordFile_sum]
    simp [List.length_cons]
    omega

theorem progress_le_100 (a n : Nat) (h : a ≤ n) (hn : 0 < n) : a * 100 / n ≤ 100 := by
  calc a * 100 / n ≤ n * 100 / n := Nat.div_le_div_right (Nat.mul_le_mul_right 100 h)
    _ = 100 := Nat.mul_div_cancel_left 100 hn

theorem processFiles_emissions (targetSize : Nat × Nat) (l : List PyFile) :
    ∀ t : ProgressTracker, t.processed + t.errors + l.length ≤ t.total → 0 < t.total →
      ∀ v ∈ (processFiles targetSize l t).2, v ≤ 100 := by
  induction l with
  | nil => intro t _ _ v hv; simp [processFiles] at hv
  | cons f fs ih =>
    intro t hle hpos v hv
    have hv' : v = progressValue (recordFile t f targetSize) ∨
        v ∈ (processFiles targetSize fs (recordFile t f targetSize)).2 := by
      simpa [processFiles] using hv
    have hlen : t.processed + t.errors + (fs.length + 1) ≤ t.total := by
      simpa [List.length_cons] using hle
    rcases hv' with rfl | hv'
    · unfold progressValue
      rw [recordFile_sum, recordFile_total]
      exact progress_le_100 _ _ (by omega) hpos
    · refine ih (recordFile t f targetSize) ?_ ?_ v hv'
      · rw [recordFile_sum, recordFile_total]
        omega
      · rw [recordFile_total]
        exact hpos

theorem runBatches_cons_none (targetSize : Nat × Nat) (b : List PyFile)
    (rest : List (List PyFile)) (sched : List (Option Nat)) (t : ProgressTracker)
    (h : sched.headD none = none) :
    runBatches targetSize (b :: rest) sched t =
      ((runBatches targetSize rest sched.tail (processFiles targetSize b t).1).1,
        (processFiles targetSize b t).2 ++
          (runBatches targetSize rest sched.tail (processFiles targetSize b t).1).2) := by
  simp only [runBatches, h, process_image_batch, Bool.false_eq_true, if_false]

theorem runBatches_cons_some0 (targetSize : Nat × Nat) (b : List PyFile)
    (rest : List (List PyFile)) (sched : List (Option Nat)) (t : ProgressTracker)
    (h : sched.headD none = some 0) :
    runBatches targetSize (b :: rest) sched t =
      ((runBatches targetSize rest sched.tail
          { t with errors := t.errors + b.length }).1,
        (runBatches targetSize rest sched.tail
          { t with errors := t.errors + b.length }).2) := by
  simp only [runBatches, h, process_image_batch, List.take_zero, processFiles,
    if_true, List.nil_append]

theorem headD_benign (sched : List (Option Nat))
    (h : ∀ s ∈ sched, s = none ∨ s = some 0) :
    sched.headD none = none ∨ sched.headD none = some 0 := by
  cases sched with
  | nil => left; rfl
  | cons s ss => exact h s (by simp)

theorem tail_benign (sched : List (Option Nat))
    (h : ∀ s ∈ sched, s = none ∨ s = some 0) :
    ∀ s ∈ sched.tail, s = none ∨ s = some 0 :=
  fun s hs => h s (List.mem_of_mem_tail hs)

theorem runBatches_benign_total_sum (targetSize : Nat × Nat) (bs : List (List PyFile)) :
    ∀ sched t, (∀ s ∈ sched, s = none ∨ s = some 0) →
      (runBatches targetSize bs sched t).1.total = t.total ∧
      (runBatches targetSize bs sched t).1.processed +
          (runBatches targetSize bs sched t).1.errors
        = t.processed + t.errors + (bs.map List.length).sum := by
  induction bs with
  | nil => intro sched t _; exact ⟨rfl, by simp [runBatches]⟩
  | cons b rest ih =>
    intro sched t hb
    rcases headD_benign sched hb with h | h
    · rw [runBatches_cons_none targetSize b rest sched t h]
      obtain ⟨ih1, ih2⟩ := ih sched.tail (processFiles targetSize b t).1 (tail_benign sched hb)
      refine ⟨?_, ?_⟩
      · show (runBatches targetSize rest sched.tail (processFiles targetSize b t).1).1.total
          = t.total
        rw [ih1, processFiles_total]
      · show (runBatches targetSize rest sched.tail (processFiles targetSize b t).1).1.processed +
            (runBatches targetSize rest sched.tail (processFiles targetSize b t).1).1.errors
          = t.processed + t.errors + ((b :: rest).map List.length).sum
        rw [ih2, processFiles_sum]
        simp [List.map_cons, List.sum_cons]
        omega
    · rw [runBatches_cons_some0 targetSize b rest sched t h]
      obtain ⟨ih1, ih2⟩ := ih sched.tail { t with errors := t.errors + b.length }
        (tail_benign sched hb)
      refine ⟨?_, ?_⟩
      · show (runBatches targetSize rest sched.tail
            { t with errors := t.errors + b.length }).1.total = t.total
        rw [ih1]
      · show (runBatches targetSize rest sched.tail
              { t with errors := t.errors + b.length }).1.processed +
            (runBatches targetSize rest sched.tail
              { t with errors := t.errors + b.length }).1.errors
          = t.processed + t.errors + ((b :: rest).map List.length).sum
        rw [ih2]
        show t.processed + (t.errors + b.length) + (rest.map List.length).sum
          = t.processed + t.errors + ((b :: rest).map List.length).sum
        simp [List.map_cons, List.sum_cons]
        omega

theorem runBatches_benign_emissions (targetSize : Nat × Nat) (bs : List (List PyFile)) :
    ∀ sched t, (∀ s ∈ sched, s = none ∨ s = some 0) →
      t.processed + t.errors + (bs.map List.length).sum ≤ t.total → 0 < t.total →
      ∀ v ∈ (runBatches targetSize bs sched t).2, v ≤ 100 := by
  induction bs with
  | nil => intro sched t _ _ _ v hv; simp [runBatches] at hv
  | cons b rest ih =>
    intro sched t hb hle hpos v hv
    have hsum : t.processed + t.errors + (b.length + (rest.map List.length).sum) ≤ t.total := by
      simpa [List.map_cons, List.sum_cons] using hle
    rcases headD_benign sched hb with h | h
    · rw [runBatches_cons_none targetSize b rest sched t h] at hv
      have hv' : v ∈ (processFiles targetSize b t).2 ∨
          v ∈ (runBatches targetSize rest sched.tail (processFiles targetSize b t).1).2 := by
        simpa using hv
      rcases hv' with hv' | hv'
      · exact processFiles_emissions targetSize b t (by omega) hpos v hv'
      · refine ih sched.tail (processFiles targetSize b t).1 (tail_benign sched hb) ?_ ?_ v hv'
        · rw [processFiles_sum, processFiles_total]
          omega
        · rw [processFiles_total]
          exact hpos
    · rw [runBatches_cons_some0 targetSize b rest sched t h] at hv
      refine ih sched.tail { t with errors := t.errors + b.length } (tail_benign sched hb)
        ?_ ?_ v (by simpa using hv)
      · show t.processed + (t.errors + b.length) + (rest.map List.length).sum
          ≤ t.total
        omega
      · exact hpos

theorem chunksGo_join (bs : Nat) :
    ∀ fuel l, List.length l ≤ fuel → (chunksGo bs fuel l).flatten = l := by
  intro fuel
  induction fuel with
  | zero =>
    intro l h
    have hl : l = [] := List.length_eq_zero.mp (Nat.le_zero.mp h)
    subst hl
    rfl
  | succ n ih =>
    intro l h
    cases l with
    | nil => rfl
    | cons f rest =>
      show ((f :: rest.take (bs - 1)) :: chunksGo bs n (rest.drop (bs - 1))).flatten = f :: rest
      have hdrop : (rest.drop (bs - 1)).length ≤ n := by
        simp only [List.length_drop]
        simp only [List.length_cons] at h
        omega
      simp only [List.flatten_cons, ih (rest.drop (bs - 1)) hdrop, List.cons_append,
        List.take_append_drop]

theorem chunksOf_join (bs : Nat) (files : List PyFile) :
    (chunksOf bs files).flatten = files :=
  chunksGo_join bs files.length files (le_refl _)

theorem chunksOf_length_sum (bs : Nat) (files : List PyFile) :
    ((chunksOf bs files).map List.length).sum = files.length := by
  conv_rhs => rw [← chunksOf_join bs files]
  rw [List.length_flatten]

/-- C1 counterexample: one batch of two good files whose processing
raises after the first file was recorded as processed (an exception in
the progress-update section, which sits outside the per-file `try`).
The recovery path of `ImageProcessor.run` then errors every file of the
batch, so the first file is counted twice: the final counts are
`(processed, errors, total) = (1, 2, 2)` and `processed + errors`
exceeds `total` — the claimed reconciliation fails. -/
theorem batch_failure_double_counts :
    (schedulerRun [fJ1, fJ2] ts200 10 [some 1]).processed = 1 ∧
      (schedulerRun [fJ1, fJ2] ts200 10 [some 1]).errors = 2 ∧
      (schedulerRun [fJ1, fJ2] ts200 10 [some 1]).total = 2 ∧
      (schedulerRun [fJ1, fJ2] ts200 10 [some 1]).processed +
          (schedulerRun [fJ1, fJ2] ts200 10 [some 1]).errors ≠
        (schedulerRun [fJ1, fJ2] ts200 10 [some 1]).total := by
  refine ⟨by decide, by decide, by decide, by decide⟩

/-- C1 as amended: `processed + errors = total` holds after every run in
which each batch-level failure strikes before its batch has recorded any
file (dispatch or cancellation failures) — such a batch's files are each
counted as an error exactly once and the other batches complete
normally.  A batch that fails after recording `j > 0` files counts those
files twice, because the recovery errors the whole batch unconditionally. -/
theorem run_reconciliation_benign (files : List PyFile) (targetSize : Nat × Nat)
    (batchSize : Nat) (sched : List (Option Nat))
    (h : ∀ s ∈ sched, s = none ∨ s = some 0) :
    (schedulerRun files targetSize batchSize sched).processed +
        (schedulerRun files targetSize batchSize sched).errors
      = (schedulerRun files targetSize batchSize sched).total := by
  unfold schedulerRun
  split
  · rfl
  · obtain ⟨h1, h2⟩ := runBatches_benign_total_sum targetSize (chunksOf batchSize files)
      sched ⟨0, 0, files.length⟩ h
    show (runBatches targetSize (chunksOf batchSize files) sched ⟨0, 0, files.length⟩).1.processed +
        (runBatches targetSize (chunksOf batchSize files) sched ⟨0, 0, files.length⟩).1.errors
      = (runBatches targetSize (chunksOf batchSize files) sched ⟨0, 0, files.length⟩).1.total
    rw [h1, h2, chunksOf_length_sum]
    simp

theorem run_reconciliation_benign_witness :
    (schedulerRun [fJ1] ts200 10 [some 0]).processed +
        (schedulerRun [fJ1] ts200 10 [some 0]).errors
      = (schedulerRun [fJ1] ts200 10 [some 0]).total :=
  run_reconciliation_benign [fJ1] ts200 10 [some 0] (by decide)

/-- C4 counterexample: the emitted progress values of the
double-counting run are `[50, 150]` — the final emission is 150, so
emitted values are not clamped to at most 100 as claimed (the code
computes `int(((processed + errors) / total) * 100)` with no clamp). -/
theorem progress_exceeds_100 :
    (schedulerRun [fJ1, fJ2] ts200 10 [some 1]).emissions = [50, 150] ∧
      ¬ (150 : Nat) ≤ 100 := by
  refine ⟨by decide, by decide⟩

/-- C4 as amended: every emitted progress value is
`int(((processed + errors) / total) * 100)` with no clamp applied; in
runs whose batch-level failures all strike before any file of the batch
is recorded, every emission is at most 100 and the final emission is
exactly 100.  When the file list is empty the run returns before
emitting anything, so no division by zero occurs but no 100% value is
reported either (the `total > 0` guard on the final emission exists but
that emission is never reached with `total = 0`). -/
theorem progress_emission_bounds (files : List PyFile) (targetSize : Nat × Nat)
    (batchSize : Nat) (sched : List (Option Nat))
    (h : ∀ s ∈ sched, s = none ∨ s = some 0) :
    (files = [] → (schedulerRun files targetSize batchSize sched).emissions = []) ∧
    (files ≠ [] →
      (∀ v ∈ (schedulerRun files targetSize batchSize sched).emissions, v ≤ 100) ∧
      (schedulerRun files targetSize batchSize sched).emissions.getLast? = some 100) := by
  constructor
  · intro hf
    subst hf
    rfl
  · intro hf
    have hlen : 0 < files.length := List.length_pos.mpr hf
    obtain ⟨h1, h2⟩ := runBatches_benign_total_sum targetSize (chunksOf batchSize files)
      sched ⟨0, 0, files.length⟩ h
    have hT : (runBatches targetSize (chunksOf batchSize files) sched
        ⟨0, 0, files.length⟩).1.total = files.length := h1
    have hS : (runBatches targetSize (chunksOf batchSize files) sched
          ⟨0, 0, files.length⟩).1.processed +
        (runBatches targetSize (chunksOf batchSize files) sched
          ⟨0, 0, files.length⟩).1.errors = files.length := by
      rw [h2, chunksOf_length_sum]
      simp
    have hemk : (schedulerRun files targetSize batchSize sched).emissions =
        (runBatches targetSize (chunksOf batchSize files) sched ⟨0, 0, files.length⟩).2
          ++ [100] := by
      unfold schedulerRun
      rw [if_neg (by omega)]
      show (runBatches targetSize (chunksOf batchSize files) sched ⟨0, 0, files.length⟩).2 ++
          [if (runBatches targetSize (chunksOf batchSize files) sched
              ⟨0, 0, files.length⟩).1.total > 0 then
            ((runBatches targetSize (chunksOf batchSize files) sched
                ⟨0, 0, files.length⟩).1.processed +
              (runBatches targetSize (chunksOf batchSize files) sched
                ⟨0, 0, files.length⟩).1.errors) * 100 /
              (runBatches targetSize (chunksOf batchSize files) sched
                ⟨0, 0, files.length⟩).1.total
          else 100] = _ ++ [100]
      rw [hT, hS, if_pos hlen, Nat.mul_div_cancel_left 100 hlen]
    constructor
    · intro v hv
      rw [hemk] at hv
      rcases List.mem_append.mp hv with hv' | hv'
      · refine runBatches_benign_emissions targetSize (chunksOf batchSize files) sched
          ⟨0, 0, files.length⟩ h ?_ hlen v hv'
        show 0 + 0 + ((chunksOf batchSize files).map List.length).sum ≤ files.length
        rw [chunksOf_length_sum]
        omega
      · have : v = 100 := by simpa using hv'
        omega
    · rw [hemk]
      exact List.getLast?_concat _

theorem progress_emission_bounds_witness :
    (∀ v ∈ (schedulerRun [fJ1] ts200 10 []).emissions, v ≤ 100) ∧
      (schedulerRun [fJ1] ts200 10 []).emissions.getLast? = some 100 :=
  (progress_emission_bounds [fJ1] ts200 10 [] (by simp)).2 (List.cons_ne_nil _ _)

/-- C5 counterexample: a run over an empty file list emits nothing at
all on the progress stream — `ImageProcessor.run` signals `finished` and
returns before the progress-emitting code (lines 213-215) — so the
claimed single emission of 100% does not happen. -/
theorem empty_run_emits_nothing :
    (schedulerRun [] ts200 10 []).emissions = [] ∧
      (schedulerRun [] ts200 10 []).emissions ≠ [100] := by
  refine ⟨by decide, by decide⟩

/-- C5 as amended: with an empty discovered file list the run completes
immediately with counts `(0, 0, 0)`, submits no batch to the worker pool
and emits no progress value at all (the UI layer additionally refuses to
start the processor for an empty list, lines 416-418). -/
theorem empty_run_immediate (targetSize : Nat × Nat) (batchSize : Nat)
    (sched : List (Option Nat)) :
    schedulerRun [] targetSize batchSize sched =
      { processed := 0, errors := 0, total := 0, emissions := [],
        batchesSubmitted := 0 } := rfl
